import Mathlib

/-!
Verification of the upload reconciliation and scheduling subsystem of the
changdu-material repository: the batch uploader polling loop
(`JuliangService.uploadBatch` / `uploadBatchInternal`), the task queue and
scheduler (`JuliangSchedulerService`), the progress persistence store, and
the download worker pool (`Download.vue`).  Definitions are shallow
embeddings of the corresponding TypeScript source.
-/

namespace ChangduMaterial

/-! ## Batch uploader polling loop (juliang.service, `uploadBatchInternal`) -/

/-- One iteration's observation inside the polling loop of
`uploadBatchInternal`: whether the global cancel flag is set, how many
progress bars the DOM shows, how many of them carry the success marker,
and the elapsed time (ms) since the attempt started. -/
structure PollObs where
  cancelled : Bool
  progressCount : Nat
  successCount : Nat
  elapsed : Nat
deriving DecidableEq, Repr

/-- Result of one batch attempt, together with how many times the confirm
(commit) button and the cancel button were clicked during the attempt. -/
structure BatchAttemptResult where
  success : Bool
  successCount : Nat
  confirmClicks : Nat
  cancelClicks : Nat
deriving DecidableEq, Repr

/-- The polling loop of `uploadBatchInternal` (juliang.service lines
939-1049), over the sequence of observations of successive iterations;
`n` is the number of files in the batch.  Exhausting the observation list
is the 10-minute timeout, whose thrown error is caught and turned into
`{success := false, successCount := 0}` (line 1054). -/
def pollLoop (n : Nat) : List PollObs → BatchAttemptResult
  | [] => ⟨false, 0, 0, 0⟩
  | o :: rest =>
    if o.cancelled then ⟨false, 0, 0, 0⟩
    else if o.progressCount = 0 then pollLoop n rest
    else if o.progressCount < n ∧ o.elapsed > 20000 then
      ⟨false, o.progressCount, 0, 1⟩
    else if o.successCount = o.progressCount ∧ 0 < o.successCount then
      if o.progressCount < n then ⟨false, o.successCount, 0, 1⟩
      else ⟨true, o.successCount, 1, 0⟩
    else pollLoop n rest

/-- The retry loop of `uploadBatch` (juliang.service lines 826-884):
runs attempts (each attempt described by its observation trace) until one
fully succeeds, up to `maxRetries = 10`; returns the successful result, or
`{success := false, successCount := 0}` after exhausting the attempts
(line 883).  The second component counts the attempts actually executed. -/
def uploadBatchLoop (n : Nat) : List (List PollObs) → BatchAttemptResult × Nat
  | [] => (⟨false, 0, 0, 0⟩, 0)
  | t :: ts =>
    let r := pollLoop n t
    if r.success then (r, 1)
    else
      let p := uploadBatchLoop n ts
      (p.1, p.2 + 1)

/-- `uploadBatch` with its `maxRetries = 10` cap (line 837). -/
def uploadBatch (n : Nat) (traces : List (List PollObs)) : BatchAttemptResult × Nat :=
  uploadBatchLoop n (traces.take 10)

/-- Best partial success count observed across a list of attempts. -/
def bestAttemptCount (n : Nat) (traces : List (List PollObs)) : Nat :=
  (traces.map (fun t => (pollLoop n t).successCount)).foldr Nat.max 0

/-! ## Progress persistence store and resume logic -/

/-- An upload checkpoint: persisted progress for a task (record identifier,
drama, date, account, total batch count, completed batch count). -/
structure Checkpoint where
  recordId : String
  drama : String
  date : String
  account : String
  totalBatches : Nat
  completedBatches : Nat
deriving DecidableEq, Repr

/-- Modelled from the spec: the `JuliangProgressManager`
(juliang-progress.service) implementation is not part of the provided
sources — only its caller `JuliangService.uploadTask` is.  Per spec §4.5
it is a durable keyed store with `get(key) -> Checkpoint|null`,
`update(key, drama, date, account, totalBatches, completedBatches)` and
`clear(key)`, keyed by the external record identifier.  We model it as an
association list keyed by record identifier. -/
def ProgressStore := List (String × Checkpoint)

/-- Modelled from the spec: `update` stores the checkpoint under the record
identifier, overwriting any previous entry for that key. -/
def updateProgress (store : ProgressStore) (recordId drama date account : String)
    (totalBatches completedBatches : Nat) : ProgressStore :=
  (recordId, ⟨recordId, drama, date, account, totalBatches, completedBatches⟩) ::
    store.filter (fun e => !(e.1 == recordId))

/-- Modelled from the spec: `get` returns the checkpoint stored under the
record identifier, if any. -/
def getProgress (store : ProgressStore) (recordId : String) : Option Checkpoint :=
  (store.find? (fun e => e.1 == recordId)).map Prod.snd

/-- Modelled from the spec: `clear` removes the entry for the record
identifier. -/
def clearProgress (store : ProgressStore) (recordId : String) : ProgressStore :=
  store.filter (fun e => !(e.1 == recordId))

/-- Slicing loop of `uploadTask` (juliang.service lines 1114-1117), with
the remaining list length as structural fuel: at each step one chunk of
`batchSize` files is taken and at least one element is consumed, so
`files.length` steps always suffice. -/
def computeBatchesGo (batchSize : Nat) : Nat → List String → List (List String)
  | 0, _ => []
  | Nat.succ fuel, files =>
    if files.isEmpty then []
    else files.take batchSize :: computeBatchesGo batchSize fuel (files.drop batchSize)

/-- The batch plan of `uploadTask` (juliang.service lines 1113-1117): the
file list sliced into consecutive chunks of `batchSize` (the configured
batch size is 10; a zero batch size would never terminate in the source
loop and is mapped to the empty plan). -/
def computeBatches (files : List String) (batchSize : Nat) : List (List String) :=
  if batchSize = 0 then [] else computeBatchesGo batchSize files.length files

/-- The resume decision of `uploadTask` (juliang.service lines 1121-1137):
the saved checkpoint is used as the starting batch index only when its
`totalBatches` equals the current batch count; otherwise the upload starts
from batch zero. -/
def resumeStartIndex (saved : Option Checkpoint) (totalBatches : Nat) : Nat :=
  match saved with
  | some p => if p.totalBatches = totalBatches then p.completedBatches else 0
  | none => 0

/-! ## Download worker pool (Download.vue) -/

/-- Status of a download worker-pool item. -/
inductive DlStatus
  | pending | downloading | success | error | paused | cancelled
deriving DecidableEq, Repr

/-- A download worker-pool item: its lifecycle status and retry counter. -/
structure DlTask where
  status : DlStatus
  retryCount : Nat
deriving DecidableEq, Repr

/-- The stall predicate of the check timer in `downloadSingleTask`
(Download.vue lines 419-432): the last-progress timestamp is older than
`STALL_TIMEOUT = 120 * 1000` ms while the status is still
`downloading`. -/
def stallDetected (now lastProgressUpdate : Nat) (status : DlStatus) : Bool :=
  (now - lastProgressUpdate > 120 * 1000) && (status == DlStatus.downloading)

/-- Outcome of handling a detected stall for one item: whether the
underlying transfer was cancelled, the updated item, the updated shared
queue, and whether the item was requeued. -/
structure StallOutcome where
  cancelInvoked : Bool
  task : DlTask
  queue : List DlTask
  requeued : Bool
deriving DecidableEq, Repr

/-- Stall handling of `downloadSingleTask` (Download.vue): on a detected
stall the transfer is cancelled (line 450) and the stall error is raised;
in the catch block (lines 522-564), with `MAX_RETRIES = 3`, an item still
under the ceiling is reset to `pending`, its retry counter is incremented
by one, and it is pushed onto the end of the shared queue; an item at the
ceiling is marked `error` and is not requeued. -/
def handleStall (task : DlTask) (queue : List DlTask) : StallOutcome :=
  if task.retryCount < 3 then
    let t : DlTask := { status := DlStatus.pending, retryCount := task.retryCount + 1 }
    ⟨true, t, queue ++ [t], true⟩
  else
    ⟨true, { task with status := DlStatus.error }, queue, false⟩

/-! ## Task queue and scheduler (juliang-scheduler.service) -/

/-- Lifecycle status of a scheduler task. -/
inductive TaskStatus
  | pending | running | completed | failed | skipped
deriving DecidableEq, Repr

/-- An internal scheduler task (the fields the queue logic depends on). -/
structure ITask where
  recordId : String
  drama : String
  date : String
  status : TaskStatus
deriving DecidableEq, Repr

/-- Scheduler queue state: the ordered task queue, the record-identifier
keys of the `taskMap` lookup map, and the `isTaskProcessing` flag. -/
structure SchedState where
  queue : List ITask
  keys : List String
  processing : Bool
deriving DecidableEq, Repr

/-- The initial scheduler state: empty queue and map, not processing. -/
def SchedState.init : SchedState := ⟨[], [], false⟩

/-- `addTask` (juliang-scheduler.service lines 424-435): refuses a task
whose record identifier is already a key of `taskMap`; otherwise appends
it to the queue and registers the key.  Returns the updated state and
whether the task was enqueued. -/
def addTask (s : SchedState) (t : ITask) : SchedState × Bool :=
  if s.keys.contains t.recordId then (s, false)
  else ({ s with queue := s.queue ++ [t], keys := s.keys ++ [t.recordId] }, true)

/-- A task swept by `cleanup`: `completed` or `skipped`. -/
def isDone (t : ITask) : Bool :=
  t.status == TaskStatus.completed || t.status == TaskStatus.skipped

/-- `cleanup` (juliang-scheduler.service lines 440-455): removes
`completed` and `skipped` tasks from the queue, deleting their record
identifiers from `taskMap`; every other status — `failed` included —
stays. -/
def cleanup (s : SchedState) : SchedState :=
  let removedIds := (s.queue.filter (fun t => isDone t)).map ITask.recordId
  { s with
    queue := s.queue.filter (fun t => !isDone t),
    keys := s.keys.filter (fun r => !removedIds.contains r) }

/-- Date comparator of `fetchAndEnqueueTasks` line 306
(`a.date.localeCompare(b.date)` ascending; the dates are normalized
`YYYY-MM-DD` strings, on which locale comparison is the lexicographic
string order). -/
def dateLe (a b : ITask) : Bool := decide (a.date ≤ b.date)

/-- The per-account enqueue phase of `fetchAndEnqueueTasks` (lines
296-314): sort the parsed tasks by ascending date, then `addTask` each in
order. -/
def enqueueAll (s : SchedState) (ts : List ITask) : SchedState :=
  ts.foldl (fun s t => (addTask s t).1) s

/-- One fetch-and-enqueue cycle (lines 247-334, queue-relevant core):
`cleanup`, then enqueue the parsed tasks in ascending date order. -/
def fetchCycle (s : SchedState) (parsed : List ITask) : SchedState :=
  enqueueAll (cleanup s) (parsed.mergeSort dateLe)

/-- `getNextTask` (lines 551-558): the first `pending` task in queue
order. -/
def getNextTask (s : SchedState) : Option ITask :=
  s.queue.find? (fun t => t.status == TaskStatus.pending)

/-- Marks the first `pending` task of the queue as `running` (the start
of `processTask`, line 567, applied to the task `getNextTask` found). -/
def markRunning : List ITask → List ITask
  | [] => []
  | t :: ts =>
    if t.status == TaskStatus.pending then { t with status := TaskStatus.running } :: ts
    else t :: markRunning ts

/-- The queue-visible effect of `processQueue` picking up a task (lines
524-538): when a `pending` task exists, it becomes `running` and
`isTaskProcessing` is set. -/
def beginTask (s : SchedState) : SchedState :=
  match getNextTask s with
  | none => s
  | some _ => { s with queue := markRunning s.queue, processing := true }

/-- The queue-visible effect of `processTask` finishing (lines 583-702
together with `onTaskComplete`): the running task receives its terminal
status and `isTaskProcessing` is cleared. -/
def finishTask (s : SchedState) (st : TaskStatus) : SchedState :=
  { s with
    queue := s.queue.map (fun t =>
      if t.status == TaskStatus.running then { t with status := st } else t),
    processing := false }

/-- Scheduler transitions.  A fetch cycle only ever enqueues freshly
parsed tasks, which `parseFeishuRecord` always creates with status
`pending` (line 411); `processTask` only terminates a task as `skipped`,
`failed` or `completed`; the timer fetch skips while a task is processing
and `onTaskComplete` fetches after processing ends, and the `processQueue`
loop is the only consumer, so a task is begun only while not processing. -/
inductive SchedStep : SchedState → SchedState → Prop
  | fetch (s : SchedState) (parsed : List ITask)
      (hp : ∀ t ∈ parsed, t.status = TaskStatus.pending) :
      SchedStep s (fetchCycle s parsed)
  | start (s : SchedState) (h : s.processing = false) :
      SchedStep s (beginTask s)
  | finish (s : SchedState) (st : TaskStatus) (hp : s.processing = true)
      (hst : st = TaskStatus.completed ∨ st = TaskStatus.failed ∨ st = TaskStatus.skipped) :
      SchedStep s (finishTask s st)

/-- States reachable from the initial scheduler state. -/
inductive SchedReachable : SchedState → Prop
  | init : SchedReachable SchedState.init
  | step {s s' : SchedState} : SchedReachable s → SchedStep s s' → SchedReachable s'

/-- Number of `running` tasks in the queue. -/
def runningCount (s : SchedState) : Nat :=
  (s.queue.filter (fun t => t.status == TaskStatus.running)).length

/-- A scanned local video file as returned by `FileService.scanVideos`:
the drama (parent directory) name and the file path. -/
structure Material where
  dramaName : String
  filePath : String
deriving DecidableEq, Repr

/-- The local-resolution step of `processTask` (juliang-scheduler.service
lines 578-581): the paths of the scanned materials whose drama name
equals the task's drama. -/
def dramaFilesOf (materials : List Material) (drama : String) : List String :=
  (materials.filter (fun m => m.dramaName == drama)).map Material.filePath

/-- Externally visible effects of one `processTask` run: the remote
(Feishu) status updates issued, whether `uploadTask` was invoked, how many
checkpoint writes happened (checkpoints are written only inside
`uploadTask`), and whether the local directory was deleted. -/
structure ProcessEffects where
  remoteUpdates : List (String × String)
  uploadInvoked : Bool
  checkpointWrites : Nat
  localDirDeleted : Bool
deriving DecidableEq, Repr

/-- Outcome of one `processTask` run: final task status, the returned
"was skipped" flag, and the effects. -/
structure ProcessResult where
  status : TaskStatus
  skipped : Bool
  effects : ProcessEffects
deriving DecidableEq, Repr

/-- `processTask` (juliang-scheduler.service lines 564-703), with the
upload outcome, the checkpoint writes performed by `uploadTask`, and the
local-deletion result as parameters: zero resolved files ends the task
`skipped` with the remote status set to the skip sentinel and returns
true; a failed upload ends it `failed` with the remote status reverted to
the pending sentinel and the local files kept; a successful upload ends
it `completed` with the remote status advanced and the local directory
deleted (best-effort). -/
def processTask (task : ITask) (materials : List Material)
    (uploadSuccess : Bool) (uploadCheckpointWrites : Nat) (deleteOk : Bool) :
    ProcessResult :=
  if (dramaFilesOf materials task.drama).length = 0 then
    ⟨TaskStatus.skipped, true,
      ⟨[(task.recordId, "跳过上传")], false, 0, false⟩⟩
  else if uploadSuccess then
    ⟨TaskStatus.completed, false,
      ⟨[(task.recordId, "上传中"), (task.recordId, "待搭建")], true,
        uploadCheckpointWrites, deleteOk⟩⟩
  else
    ⟨TaskStatus.failed, false,
      ⟨[(task.recordId, "上传中"), (task.recordId, "待上传")], true,
        uploadCheckpointWrites, false⟩⟩

/-- What the scheduler does after a task finishes. -/
inductive NextAction
  | periodicTimer | immediateFetch
deriving DecidableEq, Repr

/-- `onTaskComplete` (juliang-scheduler.service lines 499-519): a skipped
task starts the periodic polling timer instead of re-querying
immediately; any other completion triggers an immediate fetch. -/
def onTaskComplete (taskSkipped : Bool) : NextAction :=
  if taskSkipped then NextAction.periodicTimer else NextAction.immediateFetch

/-- Scheduler queue invariant: the `taskMap` keys are exactly the queued
record identifiers (in order — a JS `Map` preserves insertion order, and
`addTask`/`cleanup` update queue and map in lockstep), the record
identifiers are pairwise distinct, at most one task is `running`, and
none is while `isTaskProcessing` is clear. -/
def SchedInv (s : SchedState) : Prop :=
  s.keys = s.queue.map ITask.recordId ∧
  (s.queue.map ITask.recordId).Nodup ∧
  runningCount s ≤ 1 ∧
  (s.processing = false → runningCount s = 0)

end ChangduMaterial

namespace ChangduMaterial

/-- C3: for a batch of `n` files, if the polling loop observes exactly `n`
progress indicators and all of them show the success marker, the attempt
returns `{success := true, successCount := n}`, the confirm button is
clicked exactly once, and `uploadBatch` returns that result after this
single attempt (so the commit action is clicked exactly once for the
batch). -/
theorem pollLoop_full_success_commits_once
    (n : Nat) (o : PollObs) (rest : List PollObs) (more : List (List PollObs))
    (hn : 0 < n) (hc : o.cancelled = false)
    (hp : o.progressCount = n) (hs : o.successCount = n) :
    pollLoop n (o :: rest) = ⟨true, n, 1, 0⟩ ∧
    uploadBatch n ((o :: rest) :: more) = (⟨true, n, 1, 0⟩, 1) := by
  have hloop : pollLoop n (o :: rest) = ⟨true, n, 1, 0⟩ := by
    simp only [pollLoop, hc, hp, hs]
    simp [Nat.pos_iff_ne_zero.mp hn, Nat.lt_irrefl, hn]
  refine ⟨hloop, ?_⟩
  simp [uploadBatch, uploadBatchLoop, hloop]

/-- Witness for C3 at `n = 3`. -/
theorem pollLoop_full_success_commits_once_witness :
    pollLoop 3 [⟨false, 3, 3, 25000⟩] = ⟨true, 3, 1, 0⟩ ∧
    uploadBatch 3 [[⟨false, 3, 3, 25000⟩]] = (⟨true, 3, 1, 0⟩, 1) :=
  pollLoop_full_success_commits_once 3 ⟨false, 3, 3, 25000⟩ [] []
    (by decide) (by decide) (by decide) (by decide)

/-- C4: for a batch of `n` files, if only `m < n` progress indicators are
present once the 20-second early-exit window has elapsed, the attempt
returns `{success := false, successCount := m}`, the cancel button is
clicked exactly once, and the confirm button is never clicked in that
attempt. -/
theorem pollLoop_shortfall_cancels_once
    (n : Nat) (o : PollObs) (rest : List PollObs)
    (hc : o.cancelled = false) (hm : 0 < o.progressCount)
    (hlt : o.progressCount < n) (he : o.elapsed > 20000) :
    pollLoop n (o :: rest) = ⟨false, o.progressCount, 0, 1⟩ := by
  simp only [pollLoop, hc]
  simp [Nat.pos_iff_ne_zero.mp hm, hlt, he]

/-- Witness for C4 at `n = 3`, `m = 2`. -/
theorem pollLoop_shortfall_cancels_once_witness :
    pollLoop 3 [⟨false, 2, 0, 25000⟩] = ⟨false, 2, 0, 1⟩ :=
  pollLoop_shortfall_cancels_once 3 ⟨false, 2, 0, 25000⟩ []
    (by decide) (by decide) (by decide) (by decide)

/-- If every attempt fails, the retry loop ends with the literal
`{success := false, successCount := 0}` of juliang.service line 883,
after executing every attempt. -/
lemma uploadBatchLoop_all_fail (n : Nat) (ts : List (List PollObs))
    (h : ∀ t ∈ ts, (pollLoop n t).success = false) :
    uploadBatchLoop n ts = (⟨false, 0, 0, 0⟩, ts.length) := by
  induction ts with
  | nil => rfl
  | cons t ts ih =>
    have ht : (pollLoop n t).success = false := h t (List.mem_cons_self t ts)
    have ih' := ih (fun u hu => h u (List.mem_cons_of_mem t hu))
    simp [uploadBatchLoop, ht, ih']

/-- C5 counterexample: a batch of 10 files where every one of the 10
attempts confirms 7 of 10 indicators (a best partial count of 7), yet
`uploadBatch` reports `successCount = 0`, not 7 — the claim that the
reported count equals the best partial count achieved is false. -/
theorem uploadBatch_exhausted_not_best_count :
    bestAttemptCount 10 (List.replicate 10 [⟨false, 7, 7, 30000⟩]) = 7 ∧
    uploadBatch 10 (List.replicate 10 [⟨false, 7, 7, 30000⟩]) = (⟨false, 0, 0, 0⟩, 10) ∧
    (uploadBatch 10 (List.replicate 10 [⟨false, 7, 7, 30000⟩])).1.successCount ≠ 7 := by
  refine ⟨by decide, by decide, by decide⟩

/-- C5 amended: a batch none of whose attempts reaches full success is
reported to the caller, after the `maxRetries = 10` attempts are
exhausted, as `{success := false, successCount := 0}` — the partial
counts achieved by the individual attempts are not propagated. -/
theorem uploadBatch_exhausted_reports_zero
    (n : Nat) (traces : List (List PollObs))
    (h : ∀ t ∈ traces, (pollLoop n t).success = false) :
    (uploadBatch n traces).1 = ⟨false, 0, 0, 0⟩ := by
  have : ∀ t ∈ traces.take 10, (pollLoop n t).success = false :=
    fun t ht => h t (List.mem_of_mem_take ht)
  simp [uploadBatch, uploadBatchLoop_all_fail n _ this]

/-- Witness for the amended C5. -/
theorem uploadBatch_exhausted_reports_zero_witness :
    (uploadBatch 10 (List.replicate 10 [⟨false, 7, 7, 30000⟩])).1 = ⟨false, 0, 0, 0⟩ :=
  uploadBatch_exhausted_reports_zero 10 (List.replicate 10 [⟨false, 7, 7, 30000⟩])
    (by decide)

/-- C6 counterexample: with the global cancel flag set throughout, each
attempt aborts with `{success := false, successCount := 0}`, but
`uploadBatch` still executes all 10 attempts (page reload plus
re-attempt each time) instead of stopping after the first — the claim
that no further retry attempts occur after cancellation is false. -/
theorem uploadBatch_cancelled_still_retries :
    pollLoop 5 [⟨true, 0, 0, 0⟩] = ⟨false, 0, 0, 0⟩ ∧
    (uploadBatch 5 (List.replicate 10 [⟨true, 0, 0, 0⟩])).2 = 10 ∧
    (uploadBatch 5 (List.replicate 10 [⟨true, 0, 0, 0⟩])).2 ≠ 1 := by
  refine ⟨by decide, by decide, by decide⟩

/-- C6 amended: when the global cancel flag is set, the polling loop
aborts at the very next poll checkpoint and the attempt reports
`{success := false, successCount := 0}`; `uploadBatch`, however, does not
distinguish cancellation from an ordinary shortfall, so it consumes its
remaining retries (each aborting the same way) and finally returns
`{success := false, successCount := 0}`. -/
theorem pollLoop_cancelled_aborts_immediately
    (n : Nat) (o : PollObs) (rest : List PollObs)
    (traces : List (List PollObs))
    (hc : o.cancelled = true)
    (hall : ∀ t ∈ traces, ∃ o' rest', t = o' :: rest' ∧ o'.cancelled = true) :
    pollLoop n (o :: rest) = ⟨false, 0, 0, 0⟩ ∧
    uploadBatch n traces = (⟨false, 0, 0, 0⟩, (traces.take 10).length) := by
  constructor
  · simp [pollLoop, hc]
  · have h : ∀ t ∈ traces.take 10, (pollLoop n t).success = false := by
      intro t ht
      obtain ⟨o', rest', rfl, hco⟩ := hall t (List.mem_of_mem_take ht)
      simp [pollLoop, hco]
    simp [uploadBatch, uploadBatchLoop_all_fail n _ h]

/-- C2: writing a checkpoint with `completedBatches = k` and reading it
back under the same record identifier yields the same `k`; and whenever
the saved checkpoint's `totalBatches` differs from the batch count
computed from the current file list and batch size, the checkpoint is not
used to resume — `uploadTask` starts from batch zero. -/
theorem checkpoint_roundtrip_and_stale_never_resumed
    (store : ProgressStore) (recordId drama date account : String)
    (tb k : Nat) (p : Checkpoint) (files : List String) (batchSize : Nat)
    (hstale : p.totalBatches ≠ (computeBatches files batchSize).length) :
    (getProgress (updateProgress store recordId drama date account tb k) recordId).map
        Checkpoint.completedBatches = some k ∧
    resumeStartIndex (some p) (computeBatches files batchSize).length = 0 := by
  constructor
  · simp [getProgress, updateProgress, List.find?]
  · simp [resumeStartIndex, hstale]

/-- Witness for C2: round trip at `k = 4` over the empty store, and a
checkpoint with `totalBatches = 2` against a current plan of 3 batches
(25 files, batch size 10) resuming from batch zero. -/
theorem checkpoint_roundtrip_and_stale_never_resumed_witness :
    (getProgress (updateProgress [] "r1" "X" "2024-01-05" "a1" 3 4) "r1").map
        Checkpoint.completedBatches = some 4 ∧
    resumeStartIndex (some ⟨"r1", "X", "2024-01-05", "a1", 2, 1⟩)
        (computeBatches (List.replicate 25 "f") 10).length = 0 :=
  checkpoint_roundtrip_and_stale_never_resumed [] "r1" "X" "2024-01-05" "a1" 3 4
    ⟨"r1", "X", "2024-01-05", "a1", 2, 1⟩ (List.replicate 25 "f") 10
    (by decide)

/-- C9: an item whose last-progress timestamp is older than the 2-minute
stall threshold while it is still actively downloading is detected as
stalled; its transfer is cancelled, and, while under the retry ceiling of
3, it is re-appended to the end of the shared queue with its retry
counter incremented by exactly 1; an item that stalls at the ceiling is
marked failed and is not requeued. -/
theorem workerPool_stall_requeues_then_fails
    (now lastUpdate : Nat) (task : DlTask) (queue : List DlTask)
    (hage : now - lastUpdate > 120 * 1000)
    (hactive : task.status = DlStatus.downloading) :
    stallDetected now lastUpdate task.status = true ∧
    (handleStall task queue).cancelInvoked = true ∧
    (task.retryCount < 3 →
      (handleStall task queue).queue = queue ++ [(handleStall task queue).task] ∧
      (handleStall task queue).task.retryCount = task.retryCount + 1 ∧
      (handleStall task queue).requeued = true) ∧
    (¬ task.retryCount < 3 →
      (handleStall task queue).task.status = DlStatus.error ∧
      (handleStall task queue).queue = queue ∧
      (handleStall task queue).requeued = false) := by
  refine ⟨by simp [stallDetected, hage, hactive], ?_, ?_, ?_⟩
  · by_cases h : task.retryCount < 3 <;> simp [handleStall, h]
  · intro h; simp [handleStall, h]
  · intro h; simp [handleStall, h]

/-- Witness for C9: a stalled item with one prior retry is requeued at
the end with retry counter 2; a stalled item at the ceiling of 3 is
marked failed and the queue is untouched. -/
theorem workerPool_stall_requeues_then_fails_witness :
    stallDetected 200000 0 DlStatus.downloading = true ∧
    (handleStall ⟨DlStatus.downloading, 1⟩ []).cancelInvoked = true ∧
    ((1 : Nat) < 3 →
      (handleStall ⟨DlStatus.downloading, 1⟩ []).queue =
        [] ++ [(handleStall ⟨DlStatus.downloading, 1⟩ []).task] ∧
      (handleStall ⟨DlStatus.downloading, 1⟩ []).task.retryCount = 1 + 1 ∧
      (handleStall ⟨DlStatus.downloading, 1⟩ []).requeued = true) ∧
    (¬ (1 : Nat) < 3 →
      (handleStall ⟨DlStatus.downloading, 1⟩ []).task.status = DlStatus.error ∧
      (handleStall ⟨DlStatus.downloading, 1⟩ []).queue = [] ∧
      (handleStall ⟨DlStatus.downloading, 1⟩ []).requeued = false) :=
  workerPool_stall_requeues_then_fails 200000 0 ⟨DlStatus.downloading, 1⟩ []
    (by decide) (by decide)

/-! ### Scheduler invariant lemmas -/

/-- `markRunning` does not change the record identifiers. -/
lemma markRunning_map_recordId (q : List ITask) :
    (markRunning q).map ITask.recordId = q.map ITask.recordId := by
  induction q with
  | nil => rfl
  | cons t ts ih =>
    by_cases h : t.status == TaskStatus.pending <;> simp [markRunning, h, ih]

/-- `markRunning` adds at most one `running` task. -/
lemma markRunning_runningCount (q : List ITask) :
    ((markRunning q).filter (fun t => t.status == TaskStatus.running)).length ≤
      (q.filter (fun t => t.status == TaskStatus.running)).length + 1 := by
  induction q with
  | nil => simp [markRunning]
  | cons t ts ih =>
    by_cases h : t.status == TaskStatus.pending
    · have hpend : t.status = TaskStatus.pending := by simpa using h
      simp [markRunning, h, List.filter_cons, hpend]
    · by_cases hr : t.status == TaskStatus.running <;>
        simp [markRunning, h, List.filter_cons, hr] <;> omega

/-- After `finishTask` with a non-`running` terminal status, no task is
`running`. -/
lemma finishTask_runningCount (s : SchedState) (st : TaskStatus)
    (h : st ≠ TaskStatus.running) : runningCount (finishTask s st) = 0 := by
  simp only [runningCount, finishTask, List.filter_map]
  rw [List.length_eq_zero]
  rw [List.map_eq_nil_iff]
  rw [List.filter_eq_nil_iff]
  intro t _
  by_cases hr : t.status == TaskStatus.running <;> simp [Function.comp, hr, h]

/-- `finishTask` does not change the record identifiers. -/
lemma finishTask_map_recordId (s : SchedState) (st : TaskStatus) :
    (finishTask s st).queue.map ITask.recordId = s.queue.map ITask.recordId := by
  simp only [finishTask, List.map_map]
  apply List.map_congr_left
  intro t _
  by_cases hr : t.status == TaskStatus.running <;> simp [Function.comp, hr]

/-- `cleanup` keeps the `running` tasks exactly. -/
lemma cleanup_runningCount (s : SchedState) :
    runningCount (cleanup s) = runningCount s := by
  simp only [runningCount, cleanup, List.filter_filter]
  congr 1
  apply List.filter_congr
  intro t _
  by_cases hr : t.status == TaskStatus.running
  · have : t.status = TaskStatus.running := by simpa using hr
    simp [hr, isDone, this]
  · simp [hr]

/-- `cleanup` preserves the scheduler invariant. -/
lemma cleanup_inv (s : SchedState) (h : SchedInv s) : SchedInv (cleanup s) := by
  obtain ⟨hkeys, hnodup, hrc, hrc0⟩ := h
  have hsub : List.Sublist ((cleanup s).queue.map ITask.recordId)
      (s.queue.map ITask.recordId) :=
    List.Sublist.map _ (List.filter_sublist _)
  refine ⟨?_, hnodup.sublist hsub, ?_, ?_⟩
  · -- the deleted keys are exactly the removed record identifiers
    show s.keys.filter _ = _
    rw [hkeys, List.filter_map]
    show List.map ITask.recordId _ = List.map ITask.recordId _
    congr 1
    apply List.filter_congr
    intro t ht
    have hcm : ((s.queue.filter (fun u => isDone u)).map ITask.recordId).contains
        t.recordId = isDone t := by
      by_cases hd : isDone t = true
      · rw [hd]
        exact List.elem_iff.mpr
          (List.mem_map_of_mem _ (List.mem_filter.mpr ⟨ht, hd⟩))
      · rw [Bool.eq_false_iff.mpr hd]
        rw [Bool.eq_false_iff]
        intro hc
        obtain ⟨u, hu, hru⟩ := List.mem_map.mp (List.elem_iff.mp hc)
        obtain ⟨huq, hud⟩ := List.mem_filter.mp hu
        have heq : u = t := List.inj_on_of_nodup_map hnodup huq ht hru
        exact hd (heq ▸ hud)
    show (!(((s.queue.filter (fun u => isDone u)).map ITask.recordId).contains
        t.recordId)) = (!(isDone t))
    exact congrArg Bool.not hcm
  · rw [cleanup_runningCount]; exact hrc
  · intro hpc
    rw [cleanup_runningCount]
    exact hrc0 (by simpa [cleanup] using hpc)

/-- `addTask` with a `pending` task preserves the scheduler invariant. -/
lemma addTask_inv (s : SchedState) (t : ITask)
    (hp : t.status = TaskStatus.pending) (h : SchedInv s) :
    SchedInv (addTask s t).1 := by
  obtain ⟨hkeys, hnodup, hrc, hrc0⟩ := h
  by_cases hc : t.recordId ∈ s.keys
  · have : (addTask s t).1 = s := by simp [addTask, hc]
    rw [this]
    exact ⟨hkeys, hnodup, hrc, hrc0⟩
  · have hnotmem : t.recordId ∉ s.queue.map ITask.recordId := hkeys ▸ hc
    have haddeq : (addTask s t).1 =
        { s with queue := s.queue ++ [t], keys := s.keys ++ [t.recordId] } := by
      unfold addTask
      rw [if_neg (fun hx => hc (List.elem_iff.mp hx))]
    have hfilt : List.filter (fun u => u.status == TaskStatus.running) [t] = [] := by
      simp [hp]
    refine ⟨?_, ?_, ?_, ?_⟩
    · rw [haddeq]
      show s.keys ++ [t.recordId] = (s.queue ++ [t]).map ITask.recordId
      rw [List.map_append, hkeys]
      rfl
    · rw [haddeq]
      show ((s.queue ++ [t]).map ITask.recordId).Nodup
      rw [List.map_append]
      exact hnodup.append (List.nodup_singleton _)
        ((List.disjoint_singleton).mpr hnotmem)
    · rw [haddeq]
      show (List.filter _ (s.queue ++ [t])).length ≤ 1
      rw [List.filter_append, hfilt, List.append_nil]
      exact hrc
    · intro hpf
      rw [haddeq] at hpf ⊢
      show (List.filter _ (s.queue ++ [t])).length = 0
      rw [List.filter_append, hfilt, List.append_nil]
      exact hrc0 hpf

/-- `enqueueAll` with `pending` tasks preserves the scheduler invariant. -/
lemma enqueueAll_inv (ts : List ITask) (s : SchedState)
    (hp : ∀ t ∈ ts, t.status = TaskStatus.pending) (h : SchedInv s) :
    SchedInv (enqueueAll s ts) := by
  induction ts generalizing s with
  | nil => exact h
  | cons t ts ih =>
    exact ih _ (fun u hu => hp u (List.mem_cons_of_mem t hu))
      (addTask_inv s t (hp t (List.mem_cons_self t ts)) h)

/-- Every scheduler transition preserves the invariant. -/
lemma schedStep_inv {s s' : SchedState} (h : SchedInv s) (hstep : SchedStep s s') :
    SchedInv s' := by
  cases hstep with
  | fetch parsed hparsed =>
    refine enqueueAll_inv _ _ ?_ (cleanup_inv _ h)
    intro t ht
    exact hparsed t ((List.mergeSort_perm parsed dateLe).mem_iff.mp ht)
  | start hproc =>
    obtain ⟨hkeys, hnodup, hrc, hrc0⟩ := h
    unfold beginTask
    cases hnt : getNextTask s with
    | none => exact ⟨hkeys, hnodup, hrc, hrc0⟩
    | some t =>
      have hzero : runningCount s = 0 := hrc0 hproc
      refine ⟨?_, ?_, ?_, ?_⟩
      · simpa [markRunning_map_recordId] using hkeys
      · simpa [markRunning_map_recordId] using hnodup
      · have := markRunning_runningCount s.queue
        simp only [runningCount] at hzero ⊢
        omega
      · intro hpf; simp at hpf
  | finish st hproc hst =>
    obtain ⟨hkeys, hnodup, hrc, hrc0⟩ := h
    have hne : st ≠ TaskStatus.running := by
      rcases hst with h1 | h1 | h1 <;> simp [h1]
    refine ⟨?_, ?_, ?_, ?_⟩
    · simpa [finishTask_map_recordId] using hkeys
    · simpa [finishTask_map_recordId] using hnodup
    · rw [finishTask_runningCount s st hne]; omega
    · intro _; exact finishTask_runningCount s st hne

/-- Every reachable scheduler state satisfies the invariant. -/
lemma schedReachable_inv {s : SchedState} (h : SchedReachable s) : SchedInv s := by
  induction h with
  | init => refine ⟨rfl, ?_, ?_, ?_⟩ <;> simp [SchedState.init, runningCount]
  | step _ hstep ih => exact schedStep_inv ih hstep

/-- With pairwise-distinct record identifiers, at most one queued task
carries any given record identifier at all. -/
lemma nodup_filter_recordId_le_one (q : List ITask) (r : String)
    (h : (q.map ITask.recordId).Nodup) :
    (q.filter (fun t => t.recordId == r)).length ≤ 1 := by
  induction q with
  | nil => simp
  | cons t ts ih =>
    rw [List.map_cons, List.nodup_cons] at h
    by_cases hr : t.recordId == r
    · have hrt : t.recordId = r := by simpa using hr
      have hnone : ts.filter (fun u => u.recordId == r) = [] := by
        rw [List.filter_eq_nil_iff]
        intro u hu hur
        have hur2 : u.recordId = r := by simpa using hur
        have hm : t.recordId ∈ List.map ITask.recordId ts := by
          rw [hrt, ← hur2]
          exact List.mem_map_of_mem ITask.recordId hu
        exact h.1 hm
      simp [List.filter_cons, hr, hnone]
    · simpa [List.filter_cons, hr] using ih h.2

/-- C8: in every reachable scheduler state, at most one task with any
given record identifier is `running` (the `taskMap` lookup prevents a
duplicate enqueue), and at most one task is `running` overall (the
scheduler processes one task at a time). -/
theorem at_most_one_running_per_record (s : SchedState) (r : String)
    (h : SchedReachable s) :
    ((s.queue.filter (fun t => t.recordId == r)).filter
        (fun t => t.status == TaskStatus.running)).length ≤ 1 ∧
    runningCount s ≤ 1 := by
  obtain ⟨hkeys, hnodup, hrc, hrc0⟩ := schedReachable_inv h
  refine ⟨?_, hrc⟩
  calc ((s.queue.filter (fun t => t.recordId == r)).filter
          (fun t => t.status == TaskStatus.running)).length
      ≤ (s.queue.filter (fun t => t.recordId == r)).length :=
        (List.filter_sublist _).length_le
    _ ≤ 1 := nodup_filter_recordId_le_one s.queue r hnodup

/-- Witness for C8: the state reached by one fetch cycle enqueuing one
task for record r1 followed by the scheduler picking it up. -/
theorem at_most_one_running_per_record_witness :
    (((beginTask (fetchCycle SchedState.init
          [⟨"r1", "X", "2024-01-05", TaskStatus.pending⟩])).queue.filter
        (fun t => t.recordId == "r1")).filter
        (fun t => t.status == TaskStatus.running)).length ≤ 1 ∧
    runningCount (beginTask (fetchCycle SchedState.init
        [⟨"r1", "X", "2024-01-05", TaskStatus.pending⟩])) ≤ 1 :=
  at_most_one_running_per_record _ "r1"
    (SchedReachable.step
      (SchedReachable.step SchedReachable.init
        (SchedStep.fetch SchedState.init
          [⟨"r1", "X", "2024-01-05", TaskStatus.pending⟩] (by simp)))
      (SchedStep.start _ (by
        simp [fetchCycle, cleanup, enqueueAll, addTask, SchedState.init,
          List.mergeSort])))

/-- C7: a task whose local resolution finds zero video files for its
drama always ends `skipped` (never `failed` or `completed`), the remote
record is set to the skip sentinel and nothing else, `uploadTask` is
never invoked so no checkpoint is created, and the scheduler falls back
to the periodic polling timer instead of re-querying immediately. -/
theorem zero_files_skips_without_refetch
    (task : ITask) (materials : List Material)
    (uploadSuccess : Bool) (cpw : Nat) (deleteOk : Bool)
    (h : dramaFilesOf materials task.drama = []) :
    processTask task materials uploadSuccess cpw deleteOk =
      ⟨TaskStatus.skipped, true,
        ⟨[(task.recordId, "跳过上传")], false, 0, false⟩⟩ ∧
    onTaskComplete
        (processTask task materials uploadSuccess cpw deleteOk).skipped =
      NextAction.periodicTimer := by
  have hlen : (dramaFilesOf materials task.drama).length = 0 := by
    rw [h]; rfl
  have hpt : processTask task materials uploadSuccess cpw deleteOk =
      ⟨TaskStatus.skipped, true,
        ⟨[(task.recordId, "跳过上传")], false, 0, false⟩⟩ := by
    simp [processTask, hlen]
  exact ⟨hpt, by simp [hpt, onTaskComplete]⟩

/-- Witness for C7: a record for drama X while only drama Y has local
files. -/
theorem zero_files_skips_without_refetch_witness :
    processTask ⟨"r1", "X", "2024-01-05", TaskStatus.running⟩
        [⟨"Y", "/root/Y/1.mp4"⟩] false 0 false =
      ⟨TaskStatus.skipped, true, ⟨[("r1", "跳过上传")], false, 0, false⟩⟩ ∧
    onTaskComplete
        (processTask ⟨"r1", "X", "2024-01-05", TaskStatus.running⟩
          [⟨"Y", "/root/Y/1.mp4"⟩] false 0 false).skipped =
      NextAction.periodicTimer :=
  zero_files_skips_without_refetch ⟨"r1", "X", "2024-01-05", TaskStatus.running⟩
    [⟨"Y", "/root/Y/1.mp4"⟩] false 0 false (by decide)

/-- C1 failing input: after a total upload failure the task stays in the
queue as `failed` with its record identifier still in `taskMap`.  When
the next fetch cycle returns the same record as a fresh `pending` task,
`cleanup` keeps the failed task (it only sweeps `completed` and
`skipped`) and `addTask` rejects the fresh task as a duplicate, so the
fetch cycle leaves the state unchanged and `getNextTask` still returns
none: the record is never enqueued again as a pending task while the
process lives, contradicting the claimed retry. -/
theorem failed_record_blocked_from_reenqueue :
    fetchCycle ⟨[⟨"r1", "X", "2024-01-05", TaskStatus.failed⟩], ["r1"], false⟩
        [⟨"r1", "X", "2024-01-05", TaskStatus.pending⟩] =
      ⟨[⟨"r1", "X", "2024-01-05", TaskStatus.failed⟩], ["r1"], false⟩ ∧
    getNextTask
        (fetchCycle ⟨[⟨"r1", "X", "2024-01-05", TaskStatus.failed⟩], ["r1"], false⟩
          [⟨"r1", "X", "2024-01-05", TaskStatus.pending⟩]) = none := by
  have hfc : fetchCycle ⟨[⟨"r1", "X", "2024-01-05", TaskStatus.failed⟩], ["r1"], false⟩
        [⟨"r1", "X", "2024-01-05", TaskStatus.pending⟩] =
      ⟨[⟨"r1", "X", "2024-01-05", TaskStatus.failed⟩], ["r1"], false⟩ := by
    simp [fetchCycle, cleanup, enqueueAll, addTask, isDone, List.mergeSort]
  exact ⟨hfc, by simp [hfc, getNextTask]⟩

/-- `dateLe` is total. -/
lemma dateLe_total (a b : ITask) : (dateLe a b || dateLe b a) = true := by
  simp only [dateLe, Bool.or_eq_true, decide_eq_true_eq]
  exact le_total a.date b.date

/-- `dateLe` is transitive. -/
lemma dateLe_trans (a b c : ITask) (h1 : dateLe a b = true) (h2 : dateLe b c = true) :
    dateLe a c = true := by
  simp only [dateLe, decide_eq_true_eq] at h1 h2 ⊢
  exact le_trans h1 h2

/-- `enqueueAll` appends a sub-sequence of its batch to the queue
(exactly the tasks `addTask` accepted, in batch order). -/
lemma enqueueAll_queue_extends (ts : List ITask) (s : SchedState) :
    ∃ added, (enqueueAll s ts).queue = s.queue ++ added ∧ List.Sublist added ts := by
  induction ts generalizing s with
  | nil => exact ⟨[], by simp [enqueueAll], List.nil_sublist []⟩
  | cons t ts ih =>
    have hstep : enqueueAll s (t :: ts) = enqueueAll (addTask s t).1 ts := rfl
    obtain ⟨added, h1, h2⟩ := ih (addTask s t).1
    by_cases hc : t.recordId ∈ s.keys
    · have hid : (addTask s t).1 = s := by simp [addTask, hc]
      refine ⟨added, ?_, h2.cons t⟩
      rw [hstep, h1, hid]
    · have heq : (addTask s t).1 =
          { s with queue := s.queue ++ [t], keys := s.keys ++ [t.recordId] } := by
        unfold addTask
        rw [if_neg (fun hx => hc (List.elem_iff.mp hx))]
      refine ⟨t :: added, ?_, h2.cons₂ t⟩
      rw [hstep, h1, heq]
      simp

/-- Among a date-sorted segment, the first `pending` task found has a
date no later than any `pending` task of the segment. -/
lemma find?_pending_min (added : List ITask)
    (hs : added.Pairwise (fun a b => a.date ≤ b.date)) (u : ITask)
    (hfind : added.find? (fun t => t.status == TaskStatus.pending) = some u) :
    ∀ t ∈ added, t.status = TaskStatus.pending → u.date ≤ t.date := by
  induction added with
  | nil => simp at hfind
  | cons a l ih =>
    intro t ht hp
    rcases List.pairwise_cons.mp hs with ⟨hhead, htail⟩
    by_cases hpa : (a.status == TaskStatus.pending) = true
    · have hua : u = a := by
        rw [List.find?_cons, hpa] at hfind
        exact (Option.some_inj.mp hfind).symm
      rcases List.mem_cons.mp ht with rfl | htl
      · exact hua ▸ le_refl t.date
      · exact hua ▸ hhead t htl
    · rw [List.find?_cons] at hfind
      rw [Bool.eq_false_iff.mpr hpa] at hfind
      rcases List.mem_cons.mp ht with rfl | htl
      · exact absurd (by simp [hp]) hpa
      · exact ih htail hfind t htl hp

/-- C10: one fetch cycle appends to the queue a date-sorted sub-sequence
of the sorted parsed batch (tasks are enqueued in ascending date order),
and `getNextTask` takes the first `pending` task in queue order, so when
the cycle enqueues into a queue with no pending tasks, the task dequeued
next is an earliest-dated pending task of the cycle: an earlier-dated
drama of the same cycle is processed before a later-dated one. -/
theorem fetch_enqueues_in_date_order (s : SchedState) (parsed : List ITask) :
    ∃ added,
      (fetchCycle s parsed).queue = (cleanup s).queue ++ added ∧
      List.Sublist added (parsed.mergeSort dateLe) ∧
      added.Pairwise (fun a b => a.date ≤ b.date) ∧
      ((∀ x ∈ (cleanup s).queue, ¬ x.status = TaskStatus.pending) →
        ∀ u, getNextTask (fetchCycle s parsed) = some u →
          ∀ t ∈ added, t.status = TaskStatus.pending → u.date ≤ t.date) := by
  obtain ⟨added, h1, h2⟩ :=
    enqueueAll_queue_extends (parsed.mergeSort dateLe) (cleanup s)
  have hsorted : (parsed.mergeSort dateLe).Pairwise (fun a b => dateLe a b = true) :=
    List.sorted_mergeSort dateLe_trans dateLe_total parsed
  have hadded : added.Pairwise (fun a b => a.date ≤ b.date) :=
    (List.Pairwise.sublist h2 hsorted).imp
      (by intro a b hab; simpa [dateLe] using hab)
  refine ⟨added, h1, h2, hadded, ?_⟩
  intro hq0 u hu t ht hp
  have hq0none : (cleanup s).queue.find?
      (fun t => t.status == TaskStatus.pending) = none :=
    List.find?_eq_none.mpr (by intro x hx; simpa using hq0 x hx)
  rw [getNextTask] at hu
  have hfc : (fetchCycle s parsed).queue = (cleanup s).queue ++ added := h1
  rw [hfc, List.find?_append, hq0none, Option.none_or] at hu
  exact find?_pending_min added hadded u hu t ht hp

/-- Witness for C10: a cycle parsing two records with out-of-order dates
into the empty scheduler. -/
theorem fetch_enqueues_in_date_order_witness :
    ∃ added,
      (fetchCycle SchedState.init
          [⟨"r2", "Y", "2024-01-06", TaskStatus.pending⟩,
            ⟨"r1", "X", "2024-01-05", TaskStatus.pending⟩]).queue =
        (cleanup SchedState.init).queue ++ added ∧
      List.Sublist added
        (([⟨"r2", "Y", "2024-01-06", TaskStatus.pending⟩,
            ⟨"r1", "X", "2024-01-05", TaskStatus.pending⟩] : List ITask).mergeSort dateLe) ∧
      added.Pairwise (fun a b => a.date ≤ b.date) ∧
      ((∀ x ∈ (cleanup SchedState.init).queue, ¬ x.status = TaskStatus.pending) →
        ∀ u, getNextTask (fetchCycle SchedState.init
            [⟨"r2", "Y", "2024-01-06", TaskStatus.pending⟩,
              ⟨"r1", "X", "2024-01-05", TaskStatus.pending⟩]) = some u →
          ∀ t ∈ added, t.status = TaskStatus.pending → u.date ≤ t.date) :=
  fetch_enqueues_in_date_order SchedState.init
    [⟨"r2", "Y", "2024-01-06", TaskStatus.pending⟩,
      ⟨"r1", "X", "2024-01-05", TaskStatus.pending⟩]

/-- Witness for the amended C6. -/
theorem pollLoop_cancelled_aborts_immediately_witness :
    pollLoop 5 [⟨true, 0, 0, 0⟩] = ⟨false, 0, 0, 0⟩ ∧
    uploadBatch 5 (List.replicate 10 [⟨true, 0, 0, 0⟩]) =
      (⟨false, 0, 0, 0⟩, (List.take 10 (List.replicate 10 [(⟨true, 0, 0, 0⟩ : PollObs)])).length) :=
  pollLoop_cancelled_aborts_immediately 5 ⟨true, 0, 0, 0⟩ []
    (List.replicate 10 [⟨true, 0, 0, 0⟩]) (by decide)
    (by intro t ht
        refine ⟨⟨true, 0, 0, 0⟩, [], ?_, rfl⟩
        have := List.eq_of_mem_replicate ht
        simp [this])

end ChangduMaterial
